import Mathlib

/-!
Verification development for the ClauseIQ pipeline (`clauseiq_app.py`).

The pipeline under study: encode a free-text query, find the nearest
clauses in a small fixed corpus, build a prompt from them, issue a single
HTTP call to a remote generative service, and parse the returned text as
JSON into a decision record, with fallback records on failure.

The embedding models:
* Python `json` values as an inductive `Json`;
* `json.loads` as a strict recursive-descent parser `jsonLoads`
  (numbers are restricted to integers: no claim involves numeric
  payloads, and floating point is out of scope);
* `json.dumps` specialised to the flat string-valued dictionaries the
  source serialises (`dumpsRecord`), with Python's `ensure_ascii`
  escaping;
* the decision client `get_llm_decision` over an abstract outcome of its
  single `requests.post` call, in a state monad logging issued calls;
* the per-query parse in `main_app_page` (lines 358-362) as
  `parseDecision`;
* the nearest-neighbour search and the embedder at their interface
  boundary (both are external libraries: faiss and sentence-transformers).
-/

namespace ClauseIQ

/-- Python/JSON values, as produced by `json.loads`. `null` doubles as
Python's `None`. Object members keep textual order; duplicate keys are
resolved last-wins by `objGet`, matching Python dict construction. -/
inductive Json where
  | null : Json
  | bool (b : Bool) : Json
  | num (n : Int) : Json
  | str (s : String) : Json
  | arr (elts : List Json) : Json
  | obj (members : List (String × Json)) : Json

/-- Dictionary lookup, last occurrence wins (Python dicts keep the last
binding for a repeated key). -/
def objGet (kvs : List (String × Json)) (k : String) : Option Json :=
  kvs.foldl (fun acc p => if p.1 = k then some p.2 else acc) none

/-- The double-quote character. -/
def quoteChar : Char := Char.ofNat 34

/-- The backslash character. -/
def backslashChar : Char := Char.ofNat 92

/-- The opening curly bracket. -/
def lbraceChar : Char := Char.ofNat 123

/-- The closing curly bracket. -/
def rbraceChar : Char := Char.ofNat 125

/-- JSON whitespace accepted by Python's `json.loads` between tokens. -/
def isWs (c : Char) : Bool :=
  c = ' ' || c = Char.ofNat 9 || c = Char.ofNat 10 || c = Char.ofNat 13

/-- Drop leading JSON whitespace. -/
def skipWs : List Char → List Char
  | [] => []
  | c :: cs => if isWs c then skipWs cs else c :: cs

/-- Value of a hexadecimal digit. -/
def hexVal (c : Char) : Option Nat :=
  if '0' ≤ c ∧ c ≤ '9' then some (c.toNat - 48)
  else if 'a' ≤ c ∧ c ≤ 'f' then some (c.toNat - 87)
  else if 'A' ≤ c ∧ c ≤ 'F' then some (c.toNat - 55)
  else none

/-- Value of a decimal digit. -/
def digVal (c : Char) : Option Nat :=
  if '0' ≤ c ∧ c ≤ '9' then some (c.toNat - 48) else none

/-- The single-character JSON escapes `\" \\ \/ \b \f \n \r \t`. -/
def simpleEsc (e : Char) : Option Char :=
  if e = quoteChar then some quoteChar
  else if e = backslashChar then some backslashChar
  else if e = '/' then some '/'
  else if e = 'b' then some (Char.ofNat 8)
  else if e = 'f' then some (Char.ofNat 12)
  else if e = 'n' then some (Char.ofNat 10)
  else if e = 'r' then some (Char.ofNat 13)
  else if e = 't' then some (Char.ofNat 9)
  else none

mutual

/-- Parse the body of a JSON string after its opening quote, strictly:
unescaped control characters are rejected, as in Python's default
`strict=True`. Returns the decoded characters and the rest of the input
after the closing quote. (Surrogate-pair joining of `\uXXXX` escapes is
not modelled; the serialiser below never emits surrogates.) -/
def parseStringBody : List Char → Option (List Char × List Char)
  | [] => none
  | c :: cs =>
    if c = quoteChar then some ([], cs)
    else if c = backslashChar then parseEsc cs
    else if c.toNat < 32 then none
    else (parseStringBody cs).map (fun r => (c :: r.1, r.2))

/-- Parse what follows a backslash inside a JSON string: a `\uXXXX`
escape, or one of the single-character escapes. -/
def parseEsc : List Char → Option (List Char × List Char)
  | [] => none
  | e :: cs2 =>
    if e = 'u' then
      match cs2 with
      | a :: b :: c3 :: d4 :: cs3 =>
        match hexVal a, hexVal b, hexVal c3, hexVal d4 with
        | some ha, some hb, some hc, some hd =>
          (parseStringBody cs3).map
            (fun r => (Char.ofNat (4096 * ha + 256 * hb + 16 * hc + hd) :: r.1, r.2))
        | _, _, _, _ => none
      | _ => none
    else
      match simpleEsc e, parseStringBody cs2 with
      | some d, some r => some (d :: r.1, r.2)
      | _, _ => none

end

/-- Split leading decimal digits from the input. -/
def takeDigits : List Char → (List Nat × List Char)
  | [] => ([], [])
  | c :: cs =>
    match digVal c with
    | some d => let r := takeDigits cs; (d :: r.1, r.2)
    | none => ([], c :: cs)

/-- Combine decimal digits into a natural number. -/
def digitsToNat (ds : List Nat) : Nat :=
  ds.foldl (fun acc d => 10 * acc + d) 0

/-- Parse a JSON integer literal (optional minus sign, no leading zeros).
A following `.`, `e` or `E` (a float literal) is not supported by this
model and makes the parse fail; no claim involves numeric payloads. -/
def parseNumber (cs : List Char) : Option (Json × List Char) :=
  let core : List Char → Bool → Option (Json × List Char) := fun ds neg =>
    match takeDigits ds with
    | ([], _) => none
    | (d :: rest, after) =>
      if d = 0 ∧ rest ≠ [] then none
      else
        match after with
        | [] => some (.num (if neg then -(digitsToNat (d :: rest) : Int) else (digitsToNat (d :: rest) : Int)), [])
        | x :: xs =>
          if x = '.' ∨ x = 'e' ∨ x = 'E' then none
          else some (.num (if neg then -(digitsToNat (d :: rest) : Int) else (digitsToNat (d :: rest) : Int)), x :: xs)
  match cs with
  | '-' :: rest => core rest true
  | _ => core cs false

/-- Finish the literal `true` after its leading `t`. -/
def parseTrueTail : List Char → Option (Json × List Char)
  | 'r' :: 'u' :: 'e' :: rest => some (.bool true, rest)
  | _ => none

/-- Finish the literal `false` after its leading `f`. -/
def parseFalseTail : List Char → Option (Json × List Char)
  | 'a' :: 'l' :: 's' :: 'e' :: rest => some (.bool false, rest)
  | _ => none

/-- Finish the literal `null` after its leading `n`. -/
def parseNullTail : List Char → Option (Json × List Char)
  | 'u' :: 'l' :: 'l' :: rest => some (.null, rest)
  | _ => none

mutual

/-- Parse one JSON value at the head of the input (no leading
whitespace). The fuel argument bounds recursion depth; every recursive
call consumes at least one input character per unit of fuel, so any fuel
exceeding the input length is enough. -/
def parseValue : Nat → List Char → Option (Json × List Char)
  | 0, _ => none
  | Nat.succ f, cs =>
    match cs with
    | [] => none
    | c :: cs1 =>
      if c = quoteChar then
        (parseStringBody cs1).map (fun r => (.str (String.mk r.1), r.2))
      else if c = lbraceChar then
        match skipWs cs1 with
        | [] => none
        | d :: ds =>
          if d = rbraceChar then some (.obj [], ds)
          else (parseMembers f (d :: ds)).map (fun r => (.obj r.1, r.2))
      else if c = '[' then
        match skipWs cs1 with
        | [] => none
        | d :: ds =>
          if d = ']' then some (.arr [], ds)
          else (parseElems f (d :: ds)).map (fun r => (.arr r.1, r.2))
      else if c = 't' then parseTrueTail cs1
      else if c = 'f' then parseFalseTail cs1
      else if c = 'n' then parseNullTail cs1
      else if c = '-' ∨ (digVal c).isSome then parseNumber (c :: cs1)
      else none

/-- Parse the members of a JSON object after its opening brace (first
member must start at the head of the input), through the closing brace. -/
def parseMembers : Nat → List Char → Option (List (String × Json) × List Char)
  | 0, _ => none
  | Nat.succ f, cs =>
    match cs with
    | [] => none
    | c :: cs1 =>
      if c = quoteChar then
        match parseStringBody cs1 with
        | none => none
        | some (k, r1) =>
          match skipWs r1 with
          | ':' :: r2 =>
            match parseValue f (skipWs r2) with
            | none => none
            | some (v, r3) =>
              match skipWs r3 with
              | [] => none
              | d :: r4 =>
                if d = ',' then
                  (parseMembers f (skipWs r4)).map
                    (fun p => ((String.mk k, v) :: p.1, p.2))
                else if d = rbraceChar then some ([(String.mk k, v)], r4)
                else none
          | _ => none
      else none

/-- Parse the elements of a JSON array after its opening bracket (first
element must start at the head of the input), through the closing
bracket. -/
def parseElems : Nat → List Char → Option (List Json × List Char)
  | 0, _ => none
  | Nat.succ f, cs =>
    match parseValue f cs with
    | none => none
    | some (v, r1) =>
      match skipWs r1 with
      | [] => none
      | d :: r2 =>
        if d = ',' then
          (parseElems f (skipWs r2)).map (fun p => (v :: p.1, p.2))
        else if d = ']' then some ([v], r2)
        else none

end

/-- Model of Python's `json.loads` on the JSON fragment this program
exercises: strict parse of one value surrounded by optional whitespace;
`none` models a raised `json.JSONDecodeError`. The fuel `s.length + 6`
exceeds the input length, which is always sufficient. -/
def jsonLoads (s : String) : Option Json :=
  match parseValue (s.length + 6) (skipWs s.data) with
  | some (j, rest) => if skipWs rest = [] then some j else none
  | none => none

/-- A lowercase hexadecimal digit, as Python's `json.dumps` emits. -/
def hexDigit (n : Nat) : Char :=
  if n < 10 then Char.ofNat (48 + n) else Char.ofNat (87 + n)

/-- Python `json.dumps` escaping of one character with the default
`ensure_ascii=True`: printable ASCII other than quote and backslash is
kept, the named shortcuts are used for the usual control characters, and
everything else becomes `\uXXXX`. (Characters beyond the basic
multilingual plane would need surrogate pairs and are excluded by
hypothesis where this matters.) -/
def escapeChar (c : Char) : List Char :=
  if c = quoteChar then [backslashChar, quoteChar]
  else if c = backslashChar then [backslashChar, backslashChar]
  else if c = Char.ofNat 10 then [backslashChar, 'n']
  else if c = Char.ofNat 13 then [backslashChar, 'r']
  else if c = Char.ofNat 9 then [backslashChar, 't']
  else if c = Char.ofNat 8 then [backslashChar, 'b']
  else if c = Char.ofNat 12 then [backslashChar, 'f']
  else if 32 ≤ c.toNat ∧ c.toNat ≤ 126 then [c]
  else [backslashChar, 'u', hexDigit (c.toNat / 4096 % 16),
        hexDigit (c.toNat / 256 % 16), hexDigit (c.toNat / 16 % 16),
        hexDigit (c.toNat % 16)]

/-- Escape every character of a string body. -/
def escapeChars (s : List Char) : List Char :=
  (s.map escapeChar).flatten

/-- Serialise one string as a JSON string literal, Python style. -/
def dumpStr (s : String) : String :=
  String.singleton quoteChar ++ String.mk (escapeChars s.data) ++ String.singleton quoteChar

/-- Model of Python `json.dumps` restricted to the flat string-valued
dictionaries the source serialises, with the default separators
`", "` and `": "` and insertion key order. -/
def dumpsRecord (ms : List (String × String)) : String :=
  String.singleton lbraceChar
    ++ String.intercalate ", " (ms.map (fun p => dumpStr p.1 ++ ": " ++ dumpStr p.2))
    ++ String.singleton rbraceChar

/-- The `Json` object denoted by a flat string-valued record. -/
def recordJson (ms : List (String × String)) : Json :=
  .obj (ms.map (fun p => (p.1, .str p.2)))

/-- Membership of a key in a JSON object. -/
def hasField (j : Json) (k : String) : Bool :=
  match j with
  | .obj kvs => (objGet kvs k).isSome
  | _ => false

/-- All four DecisionRecord fields are present. -/
def hasAllFour (j : Json) : Bool :=
  hasField j "decision" && hasField j "reason"
    && hasField j "counterclause" && hasField j "clause_reference"

/-- Substring containment on strings (contiguous). -/
def strContains (s pat : String) : Bool :=
  decide (List.IsInfix pat.data s.data)

/-! ### The per-query parse, `main_app_page` lines 358-362

```python
try:
    parsed = json.loads(decision)
except json.JSONDecodeError:
    st.error(...)
    parsed = {"decision": "error", "reason": "Invalid JSON response",
              "counterclause": "", "clause_reference": ""}
```
-/

/-- The fallback dictionary substituted when `json.loads` raises. -/
def fallbackMembers : List (String × String) :=
  [("decision", "error"), ("reason", "Invalid JSON response"),
   ("counterclause", ""), ("clause_reference", "")]

/-- The fallback record as a `Json` object. -/
def fallbackRecordJson : Json := recordJson fallbackMembers

/-- The parse performed once per query in `main_app_page`: `json.loads`
with the `JSONDecodeError` handler substituting the fallback record. No
other exception can arise from `json.loads` on a string input, and no
field validation or filling is performed on a successful parse. -/
def parseDecision (s : String) : Json :=
  (jsonLoads s).getD fallbackRecordJson

/-! ### Prompt construction, `get_llm_decision` lines 74-88 -/

/-- The template text before the user query. -/
def promptHead : String :=
  "\nYou are an insurance claim reasoning assistant.\nUser Query: \""

/-- The template text between the user query and the clause block. -/
def promptMid : String := "\"\nRelevant Clauses:\n"

/-- The template text after the clause block: the four required output
fields and the JSON-only instruction. -/
def promptTail : String :=
  "\n\nBased on the clauses and query, respond with a JSON containing:\n- decision: approved or rejected\n- reason: short explanation\n- counterclause: any alternate way the user might still be approved\n- clause_reference: the clause(s) used\n\nRespond only with JSON.\n"

/-- The f-string of `get_llm_decision`: context is the newline join of
the matched clause texts, spliced with the query into the fixed
template. -/
def buildPrompt (q : String) (matched : List String) : String :=
  let context := String.intercalate "\n" matched
  "\nYou are an insurance claim reasoning assistant.\nUser Query: \"" ++ q
    ++ "\"\nRelevant Clauses:\n" ++ context
    ++ "\n\nBased on the clauses and query, respond with a JSON containing:\n- decision: approved or rejected\n- reason: short explanation\n- counterclause: any alternate way the user might still be approved\n- clause_reference: the clause(s) used\n\nRespond only with JSON.\n"

/-! ### The decision client, `get_llm_decision` lines 90-127

The remote service is abstracted by the outcome of the single
`requests.post` call: a raised `requests.exceptions.RequestException`
(network failure, or `raise_for_status` on a non-2xx response), a raised
`json.JSONDecodeError` from `response.json()`, or a 2xx response whose
body parsed as a JSON envelope. -/

/-- Outcome of the one `requests.post` to the Gemini endpoint, at the
point after `response.raise_for_status()` and `response.json()`. -/
inductive ApiOutcome where
  | requestException (msg : String) : ApiOutcome
  | jsonDecodeError (msg : String) : ApiOutcome
  | ok (body : Json) : ApiOutcome

/-- Python truthiness of a JSON value. -/
def truthy : Json → Bool
  | .null => false
  | .bool b => b
  | .num n => n ≠ 0
  | .str s => s ≠ ""
  | .arr xs => !xs.isEmpty
  | .obj kvs => !kvs.isEmpty

/-- Python `value.get(key)`: `None` when the key is absent; raises
(`AttributeError`) when the receiver is not a dictionary. -/
def pyGet (j : Json) (k : String) : Except Unit Json :=
  match j with
  | .obj kvs => .ok ((objGet kvs k).getD .null)
  | _ => .error ()

/-- Python `value[key]` for a string key: raises `KeyError` when absent
and `TypeError` when the receiver is not a dictionary. -/
def pySubscript (j : Json) (k : String) : Except Unit Json :=
  match j with
  | .obj kvs =>
    match objGet kvs k with
    | some v => .ok v
    | none => .error ()
  | _ => .error ()

/-- Python `value[i]` for a numeric index: raises `IndexError` when out
of range. A non-list receiver is collapsed to the raising outcome: a
dictionary or scalar raises directly, and a string would yield a
character on which the following dictionary access raises, so every
continuation in this program ends in the same uncaught exception. -/
def pyIndexNat (j : Json) (i : Nat) : Except Unit Json :=
  match j with
  | .arr xs =>
    match xs.get? i with
    | some v => .ok v
    | none => .error ()
  | _ => .error ()

/-- The guard of line 115, with Python short-circuit evaluation:
`result.get('candidates') and result['candidates'][0].get('content') and
result['candidates'][0]['content'].get('parts')`. -/
def envelopeCond (result : Json) : Except Unit Bool := do
  let a ← pyGet result "candidates"
  if truthy a then
    let c0 ← pyIndexNat (← pySubscript result "candidates") 0
    let b ← pyGet c0 "content"
    if truthy b then
      let c1 ← pyIndexNat (← pySubscript result "candidates") 0
      let ct ← pySubscript c1 "content"
      let p ← pyGet ct "parts"
      pure (truthy p)
    else pure false
  else pure false

/-- Line 116: `result['candidates'][0]['content']['parts'][0]['text']`. -/
def extractText (result : Json) : Except Unit Json := do
  let c0 ← pyIndexNat (← pySubscript result "candidates") 0
  let ct ← pySubscript c0 "content"
  let ps ← pySubscript ct "parts"
  let p0 ← pyIndexNat ps 0
  pySubscript p0 "text"

/-- The dictionary returned on a `RequestException` (line 124). -/
def transportMembers (e : String) : List (String × String) :=
  [("decision", "error"), ("reason", "API call failed: " ++ e),
   ("counterclause", ""), ("clause_reference", "")]

/-- The dictionary returned on an unexpected envelope (line 120). -/
def unexpectedMembers : List (String × String) :=
  [("decision", "error"), ("reason", "Unexpected API response format"),
   ("counterclause", ""), ("clause_reference", "")]

/-- The dictionary returned when `response.json()` raises (line 127). -/
def invalidJsonMembers (e : String) : List (String × String) :=
  [("decision", "error"), ("reason", "Invalid JSON from API: " ++ e),
   ("counterclause", ""), ("clause_reference", "")]

/-- The body of `get_llm_decision` after the single `requests.post`.
`Except.error` models a Python exception escaping the function: the
`try` block only catches `RequestException` and `JSONDecodeError`, so a
`KeyError`/`TypeError`/`AttributeError` from the envelope access
propagates. The returned Python value is a `Json`: on the success path it
is whatever sits in the `text` field, which the code returns unchecked. -/
def processResponse : ApiOutcome → Except Unit Json
  | .requestException e => .ok (.str (dumpsRecord (transportMembers e)))
  | .jsonDecodeError e => .ok (.str (dumpsRecord (invalidJsonMembers e)))
  | .ok result =>
    match envelopeCond result with
    | .error u => .error u
    | .ok false => .ok (.str (dumpsRecord unexpectedMembers))
    | .ok true =>
      match extractText result with
      | .error u => .error u
      | .ok t => .ok t

/-- The single HTTP POST primitive: queries the abstract network `net`
with the prompt and logs the issued call. -/
def httpPost (net : String → ApiOutcome) (prompt : String) :
    StateM (List String) ApiOutcome :=
  fun log => (net prompt, log ++ [prompt])

/-- `get_llm_decision`: builds the prompt, issues the one POST, and
handles the response; the call log witnesses that every control path
performs exactly one remote call (no retry, no batching). -/
def getLlmDecisionM (net : String → ApiOutcome) (q : String)
    (matched : List String) : StateM (List String) (Except Unit Json) := do
  let response ← httpPost net (buildPrompt q matched)
  pure (processResponse response)

/-! ### The clause corpus and nearest-neighbour search, lines 50-67 -/

/-- The fixed clause list of the source (lines 50-54). -/
def clauses : List String :=
  ["Clause 5.1: Surgery covered only after 4 months of continuous policy.",
   "Clause 3.2: Surgery due to accident may be exempt from waiting period.",
   "Clause 6.4: Portability clause allows prior policy duration to be counted."]

/-- Squared L2 distance between two vectors, in exact arithmetic
(floating-point rounding of faiss is out of scope). -/
def sqDist (q v : List ℚ) : ℚ :=
  (List.zipWith (fun a b => (a - b) ^ 2) q v).sum

/-- Ranking order on (insertion index, distance) pairs: ascending
distance, ties broken by lower insertion index. -/
def rankLe (a b : Nat × ℚ) : Bool :=
  decide (a.2 < b.2 ∨ (a.2 = b.2 ∧ a.1 ≤ b.1))

/-- Modelled from the spec: the `index.search` call of line 66 is
implemented by the external faiss library (`IndexFlatL2`), whose code is
not part of this repository; the spec fixes its semantics to exact
squared-L2 k-nearest-neighbour search, ascending distance with
insertion-order tie-break, returning all stored vectors when `k`
exceeds the corpus size. -/
def searchIndex (stored : List (List ℚ)) (q : List ℚ) (k : Nat) :
    List (Nat × ℚ) :=
  ((stored.enum.map (fun p => (p.1, sqDist q p.2))).mergeSort rankLe).take k

/-- Line 57: the index dimension is the length of the first stored
embedding, `len(embeddings[0])`. The embedder itself
(sentence-transformers) is external; it enters as a parameter. -/
def indexDim (embed : String → List ℚ) : Nat :=
  ((clauses.map embed).headD []).length

/-- `get_top_clause` (lines 61-67): embed the query, search the index
with `k = 2`, and map the returned row indices back to clause texts. -/
def getTopClause (embed : String → List ℚ) (q : String) : List String :=
  (searchIndex (clauses.map embed) (embed q) 2).map (fun p => clauses.getD p.1 "")



/-- A Gemini envelope whose `parts[0]` carries `"text": null`: the
guard of line 115 is satisfied, and line 116 extracts Python `None`. -/
def textNullEnv : Json :=
  .obj [("candidates", .arr [.obj [("content",
      .obj [("parts", .arr [.obj [("text", .null)]])])]])]

/-- Whether a client result is a returned string. -/
def isStrResult : Except Unit Json → Bool
  | .ok (.str _) => true
  | _ => false

/-! ### Helper lemmas: serialiser/parser round trip -/

theorem charOfNatToNat (c : Char) : Char.ofNat c.toNat = c := by
  have h : c.toNat.isValidChar := c.valid
  rw [Char.ofNat, dif_pos h]
  apply Char.eq_of_val_eq
  apply UInt32.eq_of_toBitVec_eq
  apply BitVec.eq_of_toNat_eq
  simp [Char.ofNatAux, Char.toNat]
  rfl

theorem hexVal_hexDigit : ∀ n < 16, hexVal (hexDigit n) = some n := by decide

theorem psb_step_plain (c : Char) (h1 : ¬ c = quoteChar) (h2 : ¬ c = backslashChar)
    (h3 : ¬ c.toNat < 32) (tail : List Char) :
    parseStringBody (c :: tail) = (parseStringBody tail).map (fun r => (c :: r.1, r.2)) := by
  rw [parseStringBody, if_neg h1, if_neg h2, if_neg h3]

theorem psb_step_esc (e d : Char) (he : simpleEsc e = some d) (hu : ¬ e = 'u') (tail : List Char) :
    parseStringBody (backslashChar :: e :: tail)
      = (parseStringBody tail).map (fun r => (d :: r.1, r.2)) := by
  rw [parseStringBody, if_neg (show ¬ backslashChar = quoteChar by decide), if_pos rfl]
  rw [parseEsc.eq_def]
  simp only [if_neg hu, he]
  cases parseStringBody tail <;> rfl

theorem psb_step_u (t : Nat) (ht : t < 65536) (tail : List Char) :
    parseStringBody (backslashChar :: 'u' :: hexDigit (t / 4096 % 16)
        :: hexDigit (t / 256 % 16) :: hexDigit (t / 16 % 16) :: hexDigit (t % 16) :: tail)
      = (parseStringBody tail).map (fun r => (Char.ofNat t :: r.1, r.2)) := by
  have e3 := hexVal_hexDigit (t / 4096 % 16) (Nat.mod_lt _ (by norm_num))
  have e2 := hexVal_hexDigit (t / 256 % 16) (Nat.mod_lt _ (by norm_num))
  have e1 := hexVal_hexDigit (t / 16 % 16) (Nat.mod_lt _ (by norm_num))
  have e0 := hexVal_hexDigit (t % 16) (Nat.mod_lt _ (by norm_num))
  have harith : 4096 * (t / 4096 % 16) + 256 * (t / 256 % 16) + 16 * (t / 16 % 16) + t % 16 = t := by
    omega
  have hif : ∀ {α : Type} (A B : α), (if ('u' : Char) = 'u' then A else B) = A :=
    fun A B => if_pos rfl
  rw [parseStringBody, if_neg (show ¬ backslashChar = quoteChar by decide), if_pos rfl]
  rw [parseEsc.eq_def]
  simp only [e3, e2, e1, e0, if_true, harith]

theorem psb_esc_branch (c e : Char) (he : simpleEsc e = some c) (hu : ¬ e = 'u')
    (s rest : List Char)
    (htail : parseStringBody (escapeChars s ++ quoteChar :: rest) = some (s, rest)) :
    parseStringBody ([backslashChar, e] ++ (escapeChars s ++ quoteChar :: rest))
      = some (c :: s, rest) := by
  rw [show ([backslashChar, e] : List Char) ++ (escapeChars s ++ quoteChar :: rest)
        = backslashChar :: e :: (escapeChars s ++ quoteChar :: rest) from rfl]
  rw [psb_step_esc e c he hu, htail]
  rfl

theorem psb_escape : ∀ (s : List Char), (∀ c ∈ s, c.toNat < 65536) → ∀ (rest : List Char),
    parseStringBody (escapeChars s ++ quoteChar :: rest) = some (s, rest) := by
  intro s
  induction s with
  | nil =>
    intro _ rest
    show parseStringBody (([] : List Char) ++ quoteChar :: rest) = some ([], rest)
    rw [List.nil_append, parseStringBody, if_pos rfl]
  | cons c s ih =>
    intro hs rest
    have hc : c.toNat < 65536 := hs c (List.mem_cons_self c s)
    have htail := ih (fun x hx => hs x (List.mem_cons_of_mem c hx)) rest
    have hchars : escapeChars (c :: s) = escapeChar c ++ escapeChars s := by
      simp [escapeChars]
    rw [hchars, List.append_assoc]
    by_cases hq : c = quoteChar
    · subst hq
      rw [show escapeChar quoteChar = [backslashChar, quoteChar] from by decide]
      exact psb_esc_branch quoteChar quoteChar (by decide) (by decide) s rest htail
    · by_cases hb : c = backslashChar
      · subst hb
        rw [show escapeChar backslashChar = [backslashChar, backslashChar] from by decide]
        exact psb_esc_branch backslashChar backslashChar (by decide) (by decide) s rest htail
      · by_cases h10 : c = Char.ofNat 10
        · subst h10
          rw [show escapeChar (Char.ofNat 10) = [backslashChar, 'n'] from by decide]
          exact psb_esc_branch (Char.ofNat 10) 'n' (by decide) (by decide) s rest htail
        · by_cases h13 : c = Char.ofNat 13
          · subst h13
            rw [show escapeChar (Char.ofNat 13) = [backslashChar, 'r'] from by decide]
            exact psb_esc_branch (Char.ofNat 13) 'r' (by decide) (by decide) s rest htail
          · by_cases h9 : c = Char.ofNat 9
            · subst h9
              rw [show escapeChar (Char.ofNat 9) = [backslashChar, 't'] from by decide]
              exact psb_esc_branch (Char.ofNat 9) 't' (by decide) (by decide) s rest htail
            · by_cases h8 : c = Char.ofNat 8
              · subst h8
                rw [show escapeChar (Char.ofNat 8) = [backslashChar, 'b'] from by decide]
                exact psb_esc_branch (Char.ofNat 8) 'b' (by decide) (by decide) s rest htail
              · by_cases h12 : c = Char.ofNat 12
                · subst h12
                  rw [show escapeChar (Char.ofNat 12) = [backslashChar, 'f'] from by decide]
                  exact psb_esc_branch (Char.ofNat 12) 'f' (by decide) (by decide) s rest htail
                · by_cases hrange : 32 ≤ c.toNat ∧ c.toNat ≤ 126
                  · have hec : escapeChar c = [c] := by
                      rw [escapeChar, if_neg hq, if_neg hb, if_neg h10, if_neg h13,
                          if_neg h9, if_neg h8, if_neg h12, if_pos hrange]
                    rw [hec, List.singleton_append,
                        psb_step_plain c hq hb (by omega), htail]
                    rfl
                  · have hec : escapeChar c = [backslashChar, 'u', hexDigit (c.toNat / 4096 % 16),
                        hexDigit (c.toNat / 256 % 16), hexDigit (c.toNat / 16 % 16),
                        hexDigit (c.toNat % 16)] := by
                      rw [escapeChar, if_neg hq, if_neg hb, if_neg h10, if_neg h13,
                          if_neg h9, if_neg h8, if_neg h12, if_neg hrange]
                    rw [hec]
                    rw [show ([backslashChar, 'u', hexDigit (c.toNat / 4096 % 16),
                          hexDigit (c.toNat / 256 % 16), hexDigit (c.toNat / 16 % 16),
                          hexDigit (c.toNat % 16)] : List Char) ++ (escapeChars s ++ quoteChar :: rest)
                          = backslashChar :: 'u' :: hexDigit (c.toNat / 4096 % 16)
                            :: hexDigit (c.toNat / 256 % 16) :: hexDigit (c.toNat / 16 % 16)
                            :: hexDigit (c.toNat % 16) :: (escapeChars s ++ quoteChar :: rest) from rfl]
                    rw [psb_step_u c.toNat hc, htail, charOfNatToNat]
                    rfl

theorem dataAppend (a b : String) : (a ++ b).data = a.data ++ b.data := by
  cases a; cases b; rfl

theorem strMkData (s : String) : String.mk s.data = s := by
  cases s; rfl

theorem skipWs_ws (c : Char) (h : isWs c = true) (cs : List Char) :
    skipWs (c :: cs) = skipWs cs := by
  rw [skipWs, if_pos h]

theorem skipWs_not_ws (c : Char) (h : ¬ isWs c = true) (cs : List Char) :
    skipWs (c :: cs) = c :: cs := by
  rw [skipWs, if_neg h]

theorem pv_step_str (f : Nat) (tail : List Char) :
    parseValue (f + 1) (quoteChar :: tail)
      = (parseStringBody tail).map (fun r => (.str (String.mk r.1), r.2)) := by
  rw [parseValue, if_pos rfl]

theorem pv_step_obj (f : Nat) (tail : List Char) :
    parseValue (f + 1) (lbraceChar :: tail)
      = match skipWs tail with
        | [] => none
        | d :: ds =>
          if d = rbraceChar then some (.obj [], ds)
          else (parseMembers f (d :: ds)).map (fun r => (.obj r.1, r.2)) := by
  rw [parseValue, if_neg (show ¬ lbraceChar = quoteChar by decide), if_pos rfl]

theorem hbmpData (s : String) : (∀ c ∈ s.data, c.toNat < 65536) ↔ s.data.all (fun c => decide (c.toNat < 65536)) = true := by
  simp [List.all_eq_true]

theorem pv_str (f : Nat) (s : String) (hs : ∀ c ∈ s.data, c.toNat < 65536) (rest : List Char) :
    parseValue (f + 1) (quoteChar :: (escapeChars s.data ++ quoteChar :: rest))
      = some (.str s, rest) := by
  rw [pv_step_str, psb_escape s.data hs rest]
  simp [strMkData]

theorem pm_step (f : Nat) (tail : List Char) :
    parseMembers (f + 1) (quoteChar :: tail)
      = match parseStringBody tail with
        | none => none
        | some (k, r1) =>
          match skipWs r1 with
          | ':' :: r2 =>
            match parseValue f (skipWs r2) with
            | none => none
            | some (v, r3) =>
              match skipWs r3 with
              | [] => none
              | d :: r4 =>
                if d = ',' then
                  (parseMembers f (skipWs r4)).map
                    (fun p => ((String.mk k, v) :: p.1, p.2))
                else if d = rbraceChar then some ([(String.mk k, v)], r4)
                else none
          | _ => none := by
  rw [parseMembers, if_pos rfl]

theorem pm_cons (f : Nat) (k v : String) (hk : ∀ c ∈ k.data, c.toNat < 65536)
    (hv : ∀ c ∈ v.data, c.toNat < 65536) (tail : List Char) :
    parseMembers (f + 2) (quoteChar :: (escapeChars k.data ++ quoteChar :: ':' :: ' ' ::
        quoteChar :: (escapeChars v.data ++ quoteChar :: ',' :: ' ' :: tail)))
      = (parseMembers (f + 1) (skipWs tail)).map
          (fun p => ((k, Json.str v) :: p.1, p.2)) := by
  rw [show f + 2 = (f + 1) + 1 from rfl, pm_step]
  rw [psb_escape k.data hk]
  simp only [skipWs_not_ws ':' (by decide), skipWs_ws ' ' (by decide),
    skipWs_not_ws quoteChar (by decide), pv_str f v hv,
    skipWs_not_ws ',' (by decide), strMkData]
  exact if_pos trivial

theorem pm_last (f : Nat) (k v : String) (hk : ∀ c ∈ k.data, c.toNat < 65536)
    (hv : ∀ c ∈ v.data, c.toNat < 65536) (tail : List Char) :
    parseMembers (f + 2) (quoteChar :: (escapeChars k.data ++ quoteChar :: ':' :: ' ' ::
        quoteChar :: (escapeChars v.data ++ quoteChar :: rbraceChar :: tail)))
      = some ([(k, Json.str v)], tail) := by
  rw [show f + 2 = (f + 1) + 1 from rfl, pm_step]
  rw [psb_escape k.data hk]
  simp only [skipWs_not_ws ':' (by decide), skipWs_ws ' ' (by decide),
    skipWs_not_ws quoteChar (by decide), pv_str f v hv,
    skipWs_not_ws rbraceChar (by decide), strMkData]
  rw [if_neg (show ¬ rbraceChar = ',' by decide)]
  exact if_pos trivial

theorem intercalate4 (s a b c d : String) :
    String.intercalate s [a, b, c, d] = ((a ++ s ++ b) ++ s ++ c) ++ s ++ d := rfl

theorem record4_data (k1 v1 k2 v2 k3 v3 k4 v4 : String) :
    (dumpsRecord [(k1, v1), (k2, v2), (k3, v3), (k4, v4)]).data
      = lbraceChar :: quoteChar :: (escapeChars k1.data ++ quoteChar :: ':' :: ' ' ::
          quoteChar :: (escapeChars v1.data ++ quoteChar :: ',' :: ' ' ::
          quoteChar :: (escapeChars k2.data ++ quoteChar :: ':' :: ' ' ::
          quoteChar :: (escapeChars v2.data ++ quoteChar :: ',' :: ' ' ::
          quoteChar :: (escapeChars k3.data ++ quoteChar :: ':' :: ' ' ::
          quoteChar :: (escapeChars v3.data ++ quoteChar :: ',' :: ' ' ::
          quoteChar :: (escapeChars k4.data ++ quoteChar :: ':' :: ' ' ::
          quoteChar :: (escapeChars v4.data ++ quoteChar :: rbraceChar :: [])))))))) := by
  have hsep : (", " : String).data = [',', ' '] := rfl
  have hcolon : (": " : String).data = [':', ' '] := rfl
  have hsing : ∀ c : Char, (String.singleton c).data = [c] := fun c => rfl
  have hdump : ∀ s : String, (dumpStr s).data = quoteChar :: (escapeChars s.data ++ [quoteChar]) := by
    intro s
    simp [dumpStr, dataAppend, hsing, strMkData]
  simp [dumpsRecord, intercalate4, dataAppend, hsep, hcolon, hsing, hdump]

theorem record4_parse (f : Nat) (k1 v1 k2 v2 k3 v3 k4 v4 : String)
    (hk1 : ∀ c ∈ k1.data, c.toNat < 65536) (hv1 : ∀ c ∈ v1.data, c.toNat < 65536)
    (hk2 : ∀ c ∈ k2.data, c.toNat < 65536) (hv2 : ∀ c ∈ v2.data, c.toNat < 65536)
    (hk3 : ∀ c ∈ k3.data, c.toNat < 65536) (hv3 : ∀ c ∈ v3.data, c.toNat < 65536)
    (hk4 : ∀ c ∈ k4.data, c.toNat < 65536) (hv4 : ∀ c ∈ v4.data, c.toNat < 65536) :
    parseValue (f + 6) ((dumpsRecord [(k1, v1), (k2, v2), (k3, v3), (k4, v4)]).data)
      = some (recordJson [(k1, v1), (k2, v2), (k3, v3), (k4, v4)], []) := by
  rw [record4_data]
  rw [show f + 6 = (f + 5) + 1 from rfl, pv_step_obj]
  simp only [skipWs_not_ws quoteChar (by decide)]
  rw [if_neg (show ¬ quoteChar = rbraceChar by decide)]
  rw [show f + 5 = (f + 3) + 2 from rfl, pm_cons (f + 3) k1 v1 hk1 hv1]
  simp only [skipWs_not_ws quoteChar (by decide)]
  rw [show f + 3 + 1 = (f + 2) + 2 from rfl, pm_cons (f + 2) k2 v2 hk2 hv2]
  simp only [skipWs_not_ws quoteChar (by decide)]
  rw [show f + 2 + 1 = (f + 1) + 2 from rfl, pm_cons (f + 1) k3 v3 hk3 hv3]
  simp only [skipWs_not_ws quoteChar (by decide)]
  rw [show f + 1 + 1 = f + 2 from rfl, pm_last f k4 v4 hk4 hv4]
  simp [recordJson]

theorem jsonLoads_dumpsRecord4 (k1 v1 k2 v2 k3 v3 k4 v4 : String)
    (hk1 : ∀ c ∈ k1.data, c.toNat < 65536) (hv1 : ∀ c ∈ v1.data, c.toNat < 65536)
    (hk2 : ∀ c ∈ k2.data, c.toNat < 65536) (hv2 : ∀ c ∈ v2.data, c.toNat < 65536)
    (hk3 : ∀ c ∈ k3.data, c.toNat < 65536) (hv3 : ∀ c ∈ v3.data, c.toNat < 65536)
    (hk4 : ∀ c ∈ k4.data, c.toNat < 65536) (hv4 : ∀ c ∈ v4.data, c.toNat < 65536) :
    jsonLoads (dumpsRecord [(k1, v1), (k2, v2), (k3, v3), (k4, v4)])
      = some (recordJson [(k1, v1), (k2, v2), (k3, v3), (k4, v4)]) := by
  have hdata := record4_data k1 v1 k2 v2 k3 v3 k4 v4
  have hskip : skipWs (dumpsRecord [(k1, v1), (k2, v2), (k3, v3), (k4, v4)]).data
      = (dumpsRecord [(k1, v1), (k2, v2), (k3, v3), (k4, v4)]).data := by
    rw [hdata]
    exact skipWs_not_ws lbraceChar (by decide) _
  rw [jsonLoads, hskip,
      record4_parse (dumpsRecord [(k1, v1), (k2, v2), (k3, v3), (k4, v4)]).length
        k1 v1 k2 v2 k3 v3 k4 v4 hk1 hv1 hk2 hv2 hk3 hv3 hk4 hv4]
  rfl


/-! ### The claims -/

theorem runClient (net : String → ApiOutcome) (q : String) (cs : List String) :
    (getLlmDecisionM net q cs).run []
      = (processResponse (net (buildPrompt q cs)), [buildPrompt q cs]) := rfl

theorem envelopeCond_no_candidates (kvs : List (String × Json))
    (h : objGet kvs "candidates" = none) :
    envelopeCond (Json.obj kvs) = Except.ok false := by
  have hp : pyGet (Json.obj kvs) "candidates" = .ok Json.null := by
    simp [pyGet, h]
  unfold envelopeCond
  rw [hp]
  rfl

theorem processResponse_unexpected (r : Json) (h : envelopeCond r = Except.ok false) :
    processResponse (.ok r) = .ok (.str (dumpsRecord unexpectedMembers)) := by
  simp [processResponse, h]

theorem transport_reason_eq (e : String) :
    recordJson (transportMembers e)
      = Json.obj [("decision", Json.str "error"),
          ("reason", Json.str ("API call failed" ++ ": " ++ e)),
          ("counterclause", Json.str ""), ("clause_reference", Json.str "")] := rfl

/-- C3: the decision client issues exactly one remote HTTP call per
prompt (the call log of one run has length one on every path), and on a
`RequestException` (network failure, or `raise_for_status` on a non-2xx
status) it returns, instead of raising, the serialised record whose
decision is `error` and whose reason is `API call failed` followed by
`: ` and the underlying error message. -/
theorem claim3_single_call_and_transport_fallback
    (net : String → ApiOutcome) (q : String) (cs : List String) :
    (((getLlmDecisionM net q cs).run []).2).length = 1 ∧
    (∀ e : String, net (buildPrompt q cs) = .requestException e →
      ((getLlmDecisionM net q cs).run []).1
          = .ok (.str (dumpsRecord (transportMembers e))) ∧
        recordJson (transportMembers e)
          = Json.obj [("decision", Json.str "error"),
              ("reason", Json.str ("API call failed" ++ ": " ++ e)),
              ("counterclause", Json.str ""), ("clause_reference", Json.str "")]) := by
  constructor
  · rw [runClient]
    rfl
  · intro e h
    constructor
    · rw [runClient]
      show processResponse (net (buildPrompt q cs)) = _
      rw [h]
      rfl
    · exact transport_reason_eq e

theorem claim3_witness :
    (((getLlmDecisionM (fun _ => .requestException "boom") "q" ["c1", "c2"]).run []).2).length = 1 ∧
      ((getLlmDecisionM (fun _ => .requestException "boom") "q" ["c1", "c2"]).run []).1
        = .ok (.str (dumpsRecord (transportMembers "boom"))) :=
  ⟨(claim3_single_call_and_transport_fallback (fun _ => .requestException "boom") "q" ["c1", "c2"]).1,
   (((claim3_single_call_and_transport_fallback (fun _ => .requestException "boom") "q" ["c1", "c2"]).2)
      "boom" rfl).1⟩

/-- C7: an envelope without the expected nested fields makes the guard
of line 115 false (in particular any JSON object with no `candidates`
key), and in that case the client returns, instead of raising, the
serialised record with decision `error`, the reason describing the
unexpected response format, and empty counterclause and clause
reference. -/
theorem claim7_unexpected_envelope :
    (∀ kvs : List (String × Json), objGet kvs "candidates" = none →
      envelopeCond (Json.obj kvs) = Except.ok false) ∧
    (∀ result : Json, envelopeCond result = Except.ok false →
      processResponse (.ok result) = .ok (.str (dumpsRecord unexpectedMembers)) ∧
        recordJson unexpectedMembers
          = Json.obj [("decision", Json.str "error"),
              ("reason", Json.str "Unexpected API response format"),
              ("counterclause", Json.str ""), ("clause_reference", Json.str "")]) := by
  refine ⟨envelopeCond_no_candidates, fun result h => ⟨processResponse_unexpected result h, rfl⟩⟩

theorem claim7_witness :
    envelopeCond (Json.obj []) = Except.ok false ∧
      processResponse (.ok (Json.obj [])) = .ok (.str (dumpsRecord unexpectedMembers)) :=
  ⟨claim7_unexpected_envelope.1 [] rfl,
   (claim7_unexpected_envelope.2 (Json.obj []) (claim7_unexpected_envelope.1 [] rfl)).1⟩

/-- C10 counterexample: on the envelope whose `text` field is `null`,
`get_llm_decision` returns Python `None`, not a string. -/
theorem claim10_cex :
    processResponse (.ok textNullEnv) = .ok Json.null ∧
      isStrResult (processResponse (.ok textNullEnv)) = false :=
  ⟨rfl, rfl⟩

/-- C10 (amended): on the two error branches the client does return a
string, and that string is valid JSON encoding an object with decision
`error`, a non-empty reason, and empty counterclause and clause
reference, so the caller's JSON parse of an error-branch result
succeeds; but on the success path the client returns whatever value
sits in the envelope's `text` field, which need not be a string. -/
theorem claim10_error_branch_strings (e : String)
    (he : ∀ c ∈ e.data, c.toNat < 65536) :
    (processResponse (.requestException e)
        = .ok (.str (dumpsRecord (transportMembers e))) ∧
      jsonLoads (dumpsRecord (transportMembers e))
        = some (recordJson (transportMembers e)) ∧
      objGet ((transportMembers e).map (fun p => (p.1, Json.str p.2))) "decision"
        = some (Json.str "error") ∧
      ("API call failed: " ++ e) ≠ "" ∧
      objGet ((transportMembers e).map (fun p => (p.1, Json.str p.2))) "counterclause"
        = some (Json.str "") ∧
      objGet ((transportMembers e).map (fun p => (p.1, Json.str p.2))) "clause_reference"
        = some (Json.str "")) ∧
    (∀ r : Json, envelopeCond r = Except.ok false →
      processResponse (.ok r) = .ok (.str (dumpsRecord unexpectedMembers))) ∧
    jsonLoads (dumpsRecord unexpectedMembers) = some (recordJson unexpectedMembers) ∧
    ("Unexpected API response format" : String) ≠ "" := by
  have hv2 : ∀ c ∈ ("API call failed: " ++ e).data, c.toNat < 65536 := by
    intro c hc
    rw [dataAppend] at hc
    rcases List.mem_append.mp hc with h1 | h2
    · have hfix : ∀ c ∈ ("API call failed: " : String).data, c.toNat < 65536 := by decide
      exact hfix c h1
    · exact he c h2
  have hne : ("API call failed: " ++ e) ≠ "" := by
    intro hcontra
    have hdat : ("API call failed: " ++ e).data = [] := by rw [hcontra]
    rw [dataAppend] at hdat
    exact absurd (List.append_eq_nil.mp hdat).1 (by decide)
  refine ⟨⟨rfl, ?_, rfl, hne, rfl, rfl⟩, fun r h => processResponse_unexpected r h, ?_, by decide⟩
  · exact jsonLoads_dumpsRecord4 "decision" "error" "reason" ("API call failed: " ++ e)
      "counterclause" "" "clause_reference" ""
      (by decide) (by decide) (by decide) hv2 (by decide) (by decide) (by decide) (by decide)
  · exact jsonLoads_dumpsRecord4 "decision" "error" "reason" "Unexpected API response format"
      "counterclause" "" "clause_reference" ""
      (by decide) (by decide) (by decide) (by decide) (by decide) (by decide) (by decide) (by decide)

theorem claim10_witness :
    processResponse (.requestException "boom")
        = .ok (.str (dumpsRecord (transportMembers "boom"))) ∧
      jsonLoads (dumpsRecord (transportMembers "boom"))
        = some (recordJson (transportMembers "boom")) :=
  ⟨(claim10_error_branch_strings "boom" (by decide)).1.1,
   (claim10_error_branch_strings "boom" (by decide)).1.2.1⟩

set_option maxRecDepth 40000 in
/-- C6: prompt construction is a pure string composition: the prompt is
exactly the fixed template with the user query spliced in verbatim and
the matched clause texts joined by newlines in the given order, and the
template's closing part enumerates the four required output fields and
the JSON-only instruction. -/
theorem claim6_prompt_shape (q : String) (matched : List String) :
    buildPrompt q matched
        = promptHead ++ q ++ promptMid ++ String.intercalate "\n" matched ++ promptTail ∧
      strContains promptTail "decision" = true ∧
      strContains promptTail "reason" = true ∧
      strContains promptTail "counterclause" = true ∧
      strContains promptTail "clause_reference" = true ∧
      strContains promptTail "Respond only with JSON." = true :=
  ⟨rfl, by decide, by decide, by decide, by decide, by decide⟩

/-- C9: spec-modelled embedder contract: for any embedder with a fixed
output dimension (the sentence-transformers model is external to this
repository), the index dimension of line 57 equals that dimension, so
every query vector of `get_top_clause` has the dimension of every
stored clause vector, and a dimension mismatch cannot occur. -/
theorem claim9_dimension_alignment (embed : String → List ℚ) (d : Nat)
    (hd : ∀ s : String, (embed s).length = d) (q : String) :
    (embed q).length = indexDim embed ∧
      ∀ v ∈ clauses.map embed, v.length = indexDim embed := by
  have hidx : indexDim embed = d := by
    simp [indexDim, clauses, hd]
  constructor
  · rw [hd q, hidx]
  · intro v hv
    rw [hidx]
    rcases List.mem_map.mp hv with ⟨s, _, rfl⟩
    exact hd s

theorem claim9_witness :
    ((fun _ : String => [(0 : ℚ)]) "query").length = indexDim (fun _ : String => [(0 : ℚ)]) :=
  (claim9_dimension_alignment (fun _ : String => [(0 : ℚ)]) 1 (fun _ => rfl) "query").1

/-- C1 (amended): the per-query parse is total on string inputs and
never raises: a failed JSON decode is replaced by the fallback record,
which carries all four DecisionRecord fields; but a successful parse is
returned as-is, unvalidated, so a valid-JSON input missing fields yields
a record missing those fields. -/
theorem claim1_parse_total_unvalidated (s : String) :
    (jsonLoads s = none →
      parseDecision s = fallbackRecordJson ∧ hasAllFour (parseDecision s) = true) ∧
    (∀ j : Json, jsonLoads s = some j → parseDecision s = j) := by
  constructor
  · intro h
    rw [parseDecision, h]
    exact ⟨rfl, rfl⟩
  · intro j h
    rw [parseDecision, h]
    rfl

theorem claim1_witness :
    jsonLoads "not a json document" = none ∧
      parseDecision "not a json document" = fallbackRecordJson := by
  refine ⟨rfl, ?_⟩
  exact (((claim1_parse_total_unvalidated "not a json document").1) rfl).1

/-- C1 counterexample: the string consisting of an empty JSON object is
valid JSON, so the parse succeeds and returns the empty object, which
contains none of the four DecisionRecord fields. -/
theorem claim1_cex :
    (jsonLoads "\x7b\x7d").isSome = true ∧
      parseDecision "\x7b\x7d" = Json.obj [] ∧
      hasAllFour (parseDecision "\x7b\x7d") = false :=
  ⟨rfl, rfl, rfl⟩

/-- C2 (amended): when the raw text parses as valid JSON, the parse
returns the parsed value unchanged: no missing field is filled and the
decision field is not coerced. -/
theorem claim2_no_lenient_fill (s : String) (j : Json) (h : jsonLoads s = some j) :
    parseDecision s = j ∧
      (hasField j "decision" = false → hasField (parseDecision s) "decision" = false) := by
  have hp : parseDecision s = j := by rw [parseDecision, h]; rfl
  exact ⟨hp, fun hd => hp ▸ hd⟩

theorem claim2_witness :
    jsonLoads "true" = some (Json.bool true) ∧ parseDecision "true" = Json.bool true :=
  ⟨rfl, (claim2_no_lenient_fill "true" (Json.bool true) rfl).1⟩

/-- C2 counterexample: valid JSON with only a `reason` field parses to a
record whose `decision` field is absent, not coerced to `error`, and
whose other fields are not filled with empty strings. -/
theorem claim2_cex :
    parseDecision "\x7b\"reason\": \"r\"\x7d" = Json.obj [("reason", Json.str "r")] ∧
      hasField (parseDecision "\x7b\"reason\": \"r\"\x7d") "decision" = false ∧
      hasField (parseDecision "\x7b\"reason\": \"r\"\x7d") "counterclause" = false :=
  ⟨rfl, rfl, rfl⟩

/-- C4 (amended): on JSON decode failure the per-query parse substitutes
the fixed fallback record: decision `error`, the constant reason
`Invalid JSON response` (which mentions JSON but neither describes the
specific decode error nor quotes the offending raw text), and empty
counterclause and clause reference. -/
theorem claim4_decode_failure_fallback (s : String) (h : jsonLoads s = none) :
    parseDecision s = Json.obj [("decision", Json.str "error"),
        ("reason", Json.str "Invalid JSON response"),
        ("counterclause", Json.str ""), ("clause_reference", Json.str "")] ∧
      strContains "Invalid JSON response" "JSON" = true := by
  constructor
  · rw [parseDecision, h]; rfl
  · decide

theorem claim4_witness :
    jsonLoads "not json" = none ∧
      parseDecision "not json" = Json.obj [("decision", Json.str "error"),
        ("reason", Json.str "Invalid JSON response"),
        ("counterclause", Json.str ""), ("clause_reference", Json.str "")] :=
  ⟨rfl, (claim4_decode_failure_fallback "not json" rfl).1⟩

/-- C4 counterexample: for the malformed response `not json` the
fallback reason is the constant `Invalid JSON response`; it does not
contain the first line of the offending raw text. -/
theorem claim4_cex :
    jsonLoads "not json" = none ∧
      parseDecision "not json" = fallbackRecordJson ∧
      strContains "Invalid JSON response" "not json" = false :=
  ⟨rfl, rfl, by decide⟩

/-- C8: parsing the valid JSON text with the four fields set to
`approved`, `r`, `c`, `5.1` yields exactly those four field values,
unchanged. -/
theorem claim8_roundtrip :
    parseDecision "\x7b\"decision\":\"approved\",\"reason\":\"r\",\"counterclause\":\"c\",\"clause_reference\":\"5.1\"\x7d"
        = Json.obj [("decision", Json.str "approved"), ("reason", Json.str "r"),
            ("counterclause", Json.str "c"), ("clause_reference", Json.str "5.1")] ∧
      objGet [("decision", Json.str "approved"), ("reason", Json.str "r"),
            ("counterclause", Json.str "c"), ("clause_reference", Json.str "5.1")] "decision"
        = some (Json.str "approved") ∧
      objGet [("decision", Json.str "approved"), ("reason", Json.str "r"),
            ("counterclause", Json.str "c"), ("clause_reference", Json.str "5.1")] "reason"
        = some (Json.str "r") ∧
      objGet [("decision", Json.str "approved"), ("reason", Json.str "r"),
            ("counterclause", Json.str "c"), ("clause_reference", Json.str "5.1")] "counterclause"
        = some (Json.str "c") ∧
      objGet [("decision", Json.str "approved"), ("reason", Json.str "r"),
            ("counterclause", Json.str "c"), ("clause_reference", Json.str "5.1")] "clause_reference"
        = some (Json.str "5.1") :=
  ⟨rfl, rfl, rfl, rfl, rfl⟩

theorem rankLe_trans (a b c : Nat × ℚ) (hab : rankLe a b) (hbc : rankLe b c) :
    rankLe a c := by
  simp only [rankLe, decide_eq_true_eq] at *
  rcases hab with h1 | ⟨h1e, h1i⟩ <;> rcases hbc with h2 | ⟨h2e, h2i⟩
  · exact Or.inl (lt_trans h1 h2)
  · exact Or.inl (h2e ▸ h1)
  · exact Or.inl (h1e ▸ h2)
  · exact Or.inr ⟨h1e.trans h2e, le_trans h1i h2i⟩

theorem rankLe_total (a b : Nat × ℚ) : rankLe a b || rankLe b a := by
  simp only [rankLe, Bool.or_eq_true, decide_eq_true_eq]
  rcases lt_trichotomy a.2 b.2 with h | h | h
  · exact Or.inl (Or.inl h)
  · rcases Nat.le_total a.1 b.1 with hi | hi
    · exact Or.inl (Or.inr ⟨h, hi⟩)
    · exact Or.inr (Or.inr ⟨h.symm, hi⟩)
  · exact Or.inr (Or.inl h)

/-- C5 (spec-modelled semantics of the external faiss search): for every
query and every `k ≥ 1` on a non-empty index, the search returns exactly
`min k corpus_size` results, pairwise ordered by ascending squared L2
distance with ties broken by lower insertion index, every returned pair
is the distance of a stored vector at its index, and when `k` reaches or
exceeds the corpus size all stored vectors are returned, ranked, rather
than failing. -/
theorem claim5_search_ranked (stored : List (List ℚ)) (q : List ℚ) (k : Nat)
    (hk : 1 ≤ k) (hne : stored ≠ []) :
    (searchIndex stored q k).length = min k stored.length ∧
    List.Pairwise (fun a b : Nat × ℚ => a.2 < b.2 ∨ (a.2 = b.2 ∧ a.1 < b.1))
      (searchIndex stored q k) ∧
    (∀ p ∈ searchIndex stored q k,
      ∃ v, stored[p.1]? = some v ∧ p.2 = sqDist q v) ∧
    (stored.length ≤ k →
      List.Perm ((searchIndex stored q k).map Prod.fst) (List.range stored.length)) := by
  have hbase : (stored.enum.map (fun p => (p.1, sqDist q p.2))).length = stored.length := by
    rw [List.length_map, List.enum_length]
  have hperm := List.mergeSort_perm (stored.enum.map (fun p => (p.1, sqDist q p.2))) rankLe
  have hfst : (stored.enum.map (fun p => (p.1, sqDist q p.2))).map Prod.fst
      = List.range stored.length := by
    rw [List.map_map]
    exact List.enum_map_fst stored
  have hpermfst : List.Perm
      (((stored.enum.map (fun p => (p.1, sqDist q p.2))).mergeSort rankLe).map Prod.fst)
      (List.range stored.length) := by
    have := hperm.map Prod.fst
    rwa [hfst] at this
  refine ⟨?_, ?_, ?_, ?_⟩
  · rw [searchIndex, List.length_take, List.length_mergeSort, hbase]
  · have hsorted := List.sorted_mergeSort rankLe_trans rankLe_total
      (stored.enum.map (fun p => (p.1, sqDist q p.2)))
    have hnodup : List.Pairwise (fun a b : Nat × ℚ => a.1 ≠ b.1)
        ((stored.enum.map (fun p => (p.1, sqDist q p.2))).mergeSort rankLe) := by
      apply List.pairwise_map.mp
      exact (hpermfst.nodup_iff).mpr (List.nodup_range _)
    have hcomb : List.Pairwise (fun a b : Nat × ℚ => a.2 < b.2 ∨ (a.2 = b.2 ∧ a.1 < b.1))
        ((stored.enum.map (fun p => (p.1, sqDist q p.2))).mergeSort rankLe) :=
      (hsorted.and hnodup).imp
      (fun hab => by
        rcases hab with ⟨hr, hne2⟩
        rcases of_decide_eq_true hr with h | ⟨he, hi⟩
        · exact Or.inl h
        · exact Or.inr ⟨he, lt_of_le_of_ne hi hne2⟩)
    exact hcomb.sublist (List.take_sublist k _)
  · intro p hp
    have hmem := List.mem_of_mem_take hp
    rw [List.mem_mergeSort] at hmem
    rcases List.mem_map.mp hmem with ⟨r, hr, rfl⟩
    exact ⟨r.2, List.mem_enum_iff_getElem?.mp hr, rfl⟩
  · intro hkn
    rw [searchIndex, List.take_of_length_le (by rw [List.length_mergeSort, hbase]; exact hkn)]
    exact hpermfst

theorem claim5_witness :
    1 ≤ 2 ∧ ([[(0 : ℚ)], [(1 : ℚ)]] : List (List ℚ)) ≠ [] ∧
      (searchIndex [[(0 : ℚ)], [(1 : ℚ)]] [(0 : ℚ)] 2).length
        = min 2 ([[(0 : ℚ)], [(1 : ℚ)]] : List (List ℚ)).length :=
  ⟨Nat.one_le_iff_ne_zero.mpr (by omega), List.cons_ne_nil _ _,
   (claim5_search_ranked [[(0 : ℚ)], [(1 : ℚ)]] [(0 : ℚ)] 2 (by omega)
      (List.cons_ne_nil _ _)).1⟩

end ClauseIQ
